import Mathlib

/-!
Shallow embedding of the rustcast streaming server (src/fanout.rs, src/ogg.rs,
src/audio.rs, src/server.rs, src/main.rs) and verification of the stated
properties of its specification.

Rust strings are modelled as lists of bytes (`List Nat`), Rust `Vec` as
`List`, `HashMap` as an association list, fallible or panicking operations
as `Option`/`Except`.
-/

namespace Rustcast

/-- Byte string of an ASCII Lean string literal (every character below 128). -/
def ascii (s : String) : List Nat :=
  s.toList.map (fun c => c.toNat)

/-! ## fanout.rs

`Channel<T>` holds `txs: RwLock<Vec<Mutex<mpsc::SyncSender<T>>>>`.  For
`publish` the only observable of each sender is whether its bounded queue
accepts a non-blocking `try_send`, so a subscriber is modelled by an identity
and a `full` flag (`try_send` fails exactly when `full`). -/

structure Subscriber where
  id : Nat
  full : Bool
  deriving DecidableEq, Repr

/-- Model of `Vec::swap_remove(i)`: moves the last element into position `i`
and shortens the vector by one; panics (`none`) when `i` is out of bounds. -/
def swapRemove (l : List α) (i : Nat) : Option (List α) :=
  match l.getLast? with
  | none => none
  | some last =>
    if i < l.length then some ((l.set i last).dropLast) else none

/-- The `txs.iter().enumerate()` walk of the read-lock loop of
`Channel::publish` (src/fanout.rs:27-32), starting at index `i`: collects
the index of every subscriber whose `try_send` fails. -/
def deadIndicesFrom (i : Nat) : List Subscriber → List Nat
  | [] => []
  | t :: rest =>
    if t.full then i :: deadIndicesFrom (i + 1) rest
    else deadIndicesFrom (i + 1) rest

/-- Indices collected into `dead_txs` by the read-lock loop of
`Channel::publish` (src/fanout.rs:27-32). -/
def deadIndices (txs : List Subscriber) : List Nat :=
  deadIndicesFrom 0 txs

/-- The write-lock loop of `Channel::publish` (src/fanout.rs:39-41):
`for dead_tx_index in dead_txs { txs.swap_remove(dead_tx_index); }`.
A panic of `swap_remove` propagates (`none`). -/
def applyRemovals : List Subscriber → List Nat → Option (List Subscriber)
  | txs, [] => some txs
  | txs, i :: rest =>
    match swapRemove txs i with
    | none => none
    | some txs2 => applyRemovals txs2 rest

/-- Model of `Channel::publish` (src/fanout.rs:20-43) acting on the subscriber
vector: collect the indices of full subscribers under the read lock, then, if
any, remove them under the write lock with `swap_remove`.  `none` models a
panic inside `publish`. -/
def channelPublish (txs : List Subscriber) : Option (List Subscriber) :=
  let dead := deadIndices txs
  if dead.length > 0 then applyRemovals txs dead else some txs

/-- Whether `publish` enters the `self.txs.write()` branch
(src/fanout.rs:35-38): only when `dead_txs.len() > 0`. -/
def writeLockTaken (txs : List Subscriber) : Bool :=
  decide ((deadIndices txs).length > 0)

/-! ## Receiver::recv and the ownership of the producer ends

`Receiver::recv` (src/fanout.rs:56-60) is `self.rx.recv().ok()` on a
`std::sync::mpsc` bounded channel: it returns a queued value if one is
buffered, returns `None` when the queue is empty and every `SyncSender` has
been dropped, and otherwise blocks. -/

inductive RecvOutcome
  | value
  | absent
  | blocks
  deriving DecidableEq, Repr

/-- Outcome of `Receiver::recv` (src/fanout.rs:56-60) as a function of whether
the subscriber's queue is empty and whether its `SyncSender` has been
dropped. -/
def recvModel (queueEmpty : Bool) (senderGone : Bool) : RecvOutcome :=
  if queueEmpty = false then .value
  else if senderGone then .absent
  else .blocks

/-- Holders of strong references to the `Arc<Stream>` of one mountpoint:
the registry's `StreamEntry::Live(Arc<Stream>)` (src/server.rs:27), the
`StreamSource::stream` field (src/server.rs:112), and one clone per connected
client (`handle_client` keeps its `Arc<Stream>` for the whole `recv` loop,
src/server.rs:325-343). -/
structure StreamRefs where
  registryHolds : Bool
  sourceHolds : Bool
  subscriberHolds : Nat
  deriving DecidableEq, Repr

/-- Strong count of the `Arc<Stream>`. -/
def streamRefCount (r : StreamRefs) : Nat :=
  (if r.registryHolds then 1 else 0) + (if r.sourceHolds then 1 else 0) +
    r.subscriberHolds

/-- The `Stream` (and with it its `Channel`, hence every `SyncSender` stored
in `Channel.txs`) is dropped exactly when the strong count reaches zero. -/
def streamDropped (r : StreamRefs) : Bool :=
  decide (streamRefCount r = 0)

/-- End of the source pipeline: `StreamSource` is dropped; its `Drop` impl
(src/server.rs:115-122) removes the mountpoint entry from the registry
(releasing the registry's `Arc`), and the `stream` field's `Arc` is released
with the struct.  Nothing else happens: in particular no `SyncSender` is
touched. -/
def dropStreamSource (r : StreamRefs) : StreamRefs :=
  { r with registryHolds := false, sourceHolds := false }

/-- A subscriber's `SyncSender` is gone only if `publish` removed it as dead
(src/fanout.rs:39-41) or the whole `Stream` has been dropped; there is no
other code path that drops a sender. -/
def senderGoneAfter (r : StreamRefs) (removedAsDead : Bool) : Bool :=
  removedAsDead || streamDropped r

/-! ## audio.rs -/

/-- Metadata from src/audio.rs:3-7; field values are byte strings. -/
structure Metadata where
  artist : Option (List Nat)
  title : Option (List Nat)
  deriving DecidableEq, Repr

/-- PCM data: one `Vec<i16>` per channel (src/audio.rs:9). -/
def PcmData : Type := List (List Int)

instance : DecidableEq PcmData := by
  unfold PcmData
  infer_instance

/-- StreamRead from src/audio.rs:11-15. -/
inductive StreamRead
  | Eof
  | Audio (pcm : PcmData)
  | Metadata (m : Rustcast.Metadata)
  deriving DecidableEq

/-- StreamError from src/audio.rs:17-20; the wrapped `io::Error` is opaque to
the program and modelled by a numeric code. -/
inductive StreamError
  | IoError (e : Nat)
  | BadPacket
  deriving DecidableEq, Repr

/-! ## ogg.rs -/

/-- Errors of `ogg::PacketReader::read_packet`, from the `ogg` crate as
matched at src/ogg.rs:93-97. -/
inductive OggReadError
  | ReadError (e : Nat)
  | NoCapturePatternFound
  | InvalidStreamStructVer (v : Nat)
  | HashMismatch (a b : Nat)
  | InvalidData
  deriving DecidableEq, Repr

/-- Errors of `lewton::audio::read_audio_packet` as matched at
src/ogg.rs:103-112: `AudioIsHeader` is distinguished, everything else is
collapsed by the wildcard arm. -/
inductive AudioReadError
  | AudioIsHeader
  | OtherAudioError (e : Nat)
  deriving DecidableEq, Repr

/-- A Vorbis comment header: its `comment_list` of (name, value) pairs
(byte strings), as consumed at src/ogg.rs:43. -/
structure CommentHeader where
  comment_list : List (List Nat × List Nat)
  deriving DecidableEq, Repr

/-- Conversion `impl From<CommentHeader> for Metadata` (src/ogg.rs:38-53):
a fold over the comment list with mutable `artist`/`title`, assigning on the
exact names ARTIST and TITLE and ignoring every other name. -/
def metadataFromComments (header : CommentHeader) : Metadata :=
  go header.comment_list none none
where
  go : List (List Nat × List Nat) → Option (List Nat) → Option (List Nat) →
      Metadata
    | [], artist, title => { artist := artist, title := title }
    | (name, value) :: rest, artist, title =>
      if name = ascii "ARTIST" then go rest (some value) title
      else if name = ascii "TITLE" then go rest artist (some value)
      else go rest artist title

/-- Model of `OggStream::read` (src/ogg.rs:89-113), parameterised by the
outcome of `self.rdr.read_packet()` and by oracles for
`read_audio_packet` and `read_header_comment` on the obtained packet data. -/
def oggStreamRead (readPacket : Except OggReadError (Option (List Nat)))
    (readAudioPacket : List Nat → Except AudioReadError PcmData)
    (readHeaderComment : List Nat → Except Unit CommentHeader) :
    Except StreamError StreamRead :=
  match readPacket with
  | .error (.ReadError e) => .error (.IoError e)
  | .error .NoCapturePatternFound => .error .BadPacket
  | .error (.InvalidStreamStructVer _) => .error .BadPacket
  | .error (.HashMismatch _ _) => .error .BadPacket
  | .error .InvalidData => .error .BadPacket
  | .ok none => .ok .Eof
  | .ok (some packetData) =>
    match readAudioPacket packetData with
    | .ok pcm => .ok (.Audio pcm)
    | .error .AudioIsHeader =>
      match readHeaderComment packetData with
      | .ok comment => .ok (.Metadata (metadataFromComments comment))
      | .error _ => .error .BadPacket
    | .error (.OtherAudioError _) => .error .BadPacket

/-! ## server.rs: mountpoint registry -/

/-- StreamEntry from src/server.rs:24-28; the `Arc<Stream>` of a live entry
is identified by a numeric stream id. -/
inductive StreamEntry
  | Starting
  | Live (streamId : Nat)
  deriving DecidableEq, Repr

/-- The `streams: RwLock<HashMap<String, StreamEntry>>` registry
(src/server.rs:33), modelled as an association list with unique keys. -/
def Registry : Type := List (List Nat × StreamEntry)

instance : DecidableEq Registry := by
  unfold Registry
  infer_instance

/-- HashMap::get. -/
def regGet (reg : Registry) (mount : List Nat) : Option StreamEntry :=
  (reg.find? (fun p => p.1 = mount)).map (fun p => p.2)

/-- HashMap::insert (replaces any existing binding for the key). -/
def regInsert (reg : Registry) (mount : List Nat) (e : StreamEntry) : Registry :=
  (mount, e) :: reg.filter (fun p => ¬ p.1 = mount)

/-- In-place update through HashMap::get_mut, as at src/server.rs:99-102. -/
def regSet (reg : Registry) (mount : List Nat) (e : StreamEntry) : Registry :=
  reg.map (fun p => if p.1 = mount then (p.1, e) else p)

/-- HashMap::remove, as in `Drop for StreamSource` (src/server.rs:115-122). -/
def regRemove (reg : Registry) (mount : List Nat) : Registry :=
  reg.filter (fun p => ¬ p.1 = mount)

/-- StartStreamError from src/server.rs:36-41. -/
inductive StartStreamError
  | AlreadyLive
  | Rejected
  | Hook (e : Nat)
  deriving DecidableEq, Repr

/-- Result of the `hooks::stream_start` call (src/server.rs:88). -/
inductive StreamStart
  | Ok
  | Reject
  deriving DecidableEq, Repr

/-- Model of `Rustcast::start_stream` (src/server.rs:58-106).  Under the
write lock: refuse if any entry exists; otherwise insert `Starting`, run the
start hook, and on success upgrade the entry to `Live`.  On the `Reject` and
hook-error paths the early `return Err` drops the freshly built
`StreamSource`, whose `Drop` impl removes the mountpoint entry again.
Returns the new registry and the result. -/
def start_stream (reg : Registry) (mount : List Nat) (newStreamId : Nat)
    (hook : Except Nat StreamStart) : Registry × Except StartStreamError Nat :=
  match regGet reg mount with
  | some _ => (reg, .error .AlreadyLive)
  | none =>
    let reg1 := regInsert reg mount .Starting
    match hook with
    | .ok .Ok => (regSet reg1 mount (.Live newStreamId), .ok newStreamId)
    | .ok .Reject => (regRemove reg1 mount, .error .Rejected)
    | .error e => (regRemove reg1 mount, .error (.Hook e))

/-- Status code `handle_source` sends for each `start_stream` error
(src/server.rs:187-205). -/
def sourceErrorStatus : StartStreamError → Nat
  | .AlreadyLive => 409
  | .Rejected => 403
  | .Hook _ => 500

/-! ## server.rs: request format and method dispatch -/

/-- RequestFormat from src/server.rs:291-294. -/
inductive RequestFormat
  | Mp3
  | Json
  deriving DecidableEq, Repr

/-- Inner helper of `extract_request_format` (src/server.rs:297-303):
returns the string with the suffix removed when it ends with it. -/
def chomp (s suffix : List Nat) : Option (List Nat) :=
  if suffix.isSuffixOf s then some (s.take (s.length - suffix.length))
  else none

/-- Model of `extract_request_format` (src/server.rs:296-312). -/
def extract_request_format (path : List Nat) : RequestFormat × List Nat :=
  match chomp path (ascii ".mp3") with
  | some mountpoint => (.Mp3, mountpoint)
  | none =>
    match chomp path (ascii ".json") with
    | some mountpoint => (.Json, mountpoint)
    | none => (.Mp3, path)

/-- An HTTP method as dispatched on (tiny_http::Method). -/
inductive Method
  | Source
  | Get
  | Other (name : List Nat)
  deriving DecidableEq, Repr

/-- What a request dispatcher does with a request. -/
inductive RequestAction
  | handleSource
  | handleClient
  | respond (status : Nat) (body : List Nat)
  deriving DecidableEq, Repr

/-- Model of `handle_request` in src/server.rs:361-370. -/
def handle_request_server : Method → RequestAction
  | .Source => .handleSource
  | .Get => .handleClient
  | .Other _ => .respond 404 (ascii "<h1>Method not allowed</h1>\n")

/-- Model of `handle_request` in src/main.rs:187-196. -/
def handle_request_main : Method → RequestAction
  | .Source => .handleSource
  | .Get => .handleClient
  | .Other _ => .respond 405 (ascii "<h1>Method not allowed</h1>\n")

/-! ## server.rs: the pipeline driver loop -/

/-- Observable state of the `handle_source` loop (src/server.rs:235-269):
the stream's metadata cell, the bytes written to the stream dump, and the
buffers published to the fan-out channel. -/
structure PipeState where
  metadata : Metadata
  dumped : List (List Nat)
  published : List (List Nat)
  deriving DecidableEq

/-- Control flow of the pipeline loop (src/server.rs:235-269) as a function
of the sequence of `audio_stream.read()` results, parameterised by the
mp3 encoding of a decoded packet (channel mapping and `lame.encode`,
modelled as succeeding).  An `IoError` breaks, a `BadPacket` continues with
nothing changed, `Eof` breaks, a `Metadata` read overwrites the metadata
cell and continues, and an `Audio` read is encoded, dumped and published. -/
def runPipeline (encode : PcmData → List Nat) :
    List (Except StreamError StreamRead) → PipeState → PipeState
  | [], s => s
  | r :: rest, s =>
    match r with
    | .error (.IoError _) => s
    | .error .BadPacket => runPipeline encode rest s
    | .ok .Eof => s
    | .ok (.Metadata m) => runPipeline encode rest { s with metadata := m }
    | .ok (.Audio pcm) =>
      let buff := encode pcm
      runPipeline encode rest
        { s with dumped := s.dumped ++ [buff],
                 published := s.published ++ [buff] }

/-! ## server.rs: password extraction -/

/-- An HTTP header: field name and value, both byte strings. -/
structure Header where
  field : List Nat
  value : List Nat
  deriving DecidableEq, Repr

/-- ASCII lowercase of one byte. -/
def lowerByte (c : Nat) : Nat :=
  if 65 ≤ c ∧ c ≤ 90 then c + 32 else c

/-- tiny_http's `HeaderField::equiv`: ASCII case-insensitive comparison. -/
def headerFieldEquiv (a b : List Nat) : Bool :=
  decide (a.map lowerByte = b.map lowerByte)

/-- Rust `str::split(sep)` on byte strings: splits at every separator byte,
keeping empty pieces; the empty string yields one empty piece. -/
def splitByte (sep : Nat) : List Nat → List (List Nat)
  | [] => [[]]
  | b :: rest =>
    let r := splitByte sep rest
    if b = sep then [] :: r
    else
      match r with
      | [] => [[b]]
      | h :: t => (b :: h) :: t

/-- The value of one base64 alphabet character (standard alphabet). -/
def b64Val (c : Nat) : Option Nat :=
  if 65 ≤ c ∧ c ≤ 90 then some (c - 65)
  else if 97 ≤ c ∧ c ≤ 122 then some (c - 71)
  else if 48 ≤ c ∧ c ≤ 57 then some (c + 4)
  else if c = 43 then some 62
  else if c = 47 then some 63
  else none

/-- Strip at most two trailing `=` padding characters. -/
def stripB64Pad (s : List Nat) : List Nat :=
  if s.reverse.take 2 = [61, 61] then s.dropLast.dropLast
  else if s.reverse.take 1 = [61] then s.dropLast
  else s

/-- Pack a list of 6-bit values into bytes; a trailing group of one sextet
cannot be produced by an encoder and is rejected. -/
def sextetsToBytes : List Nat → Option (List Nat)
  | [] => some []
  | [_] => none
  | [a, b] => some [a * 4 + b / 16]
  | [a, b, c] => some [a * 4 + b / 16, b % 16 * 16 + c / 4]
  | a :: b :: c :: d :: rest =>
    (sextetsToBytes rest).map
      (fun tail =>
        (a * 4 + b / 16) :: (b % 16 * 16 + c / 4) :: (c % 4 * 64 + d) :: tail)

/-- Model of `base64::decode` (standard alphabet, as used at
src/server.rs:174): fails on any character outside the alphabet and on a
length that no encoder produces. -/
def base64Decode (s : List Nat) : Option (List Nat) :=
  (stripB64Pad s).mapM b64Val >>= sextetsToBytes

/-- Whether one byte is a UTF-8 continuation byte (0x80-0xBF). -/
def utf8Cont (c : Nat) : Bool :=
  decide (128 ≤ c ∧ c ≤ 191)

/-- UTF-8 validity of a byte string (what `String::from_utf8` checks):
well-formed sequences only, no overlong forms, no surrogates, maximum
U+10FFFF. -/
def utf8Valid : List Nat → Bool
  | [] => true
  | c :: rest =>
    if c ≤ 127 then utf8Valid rest
    else if 194 ≤ c && c ≤ 223 then
      match rest with
      | c1 :: rest2 => utf8Cont c1 && utf8Valid rest2
      | [] => false
    else if c = 224 then
      match rest with
      | c1 :: c2 :: rest2 =>
        decide (160 ≤ c1 ∧ c1 ≤ 191) && utf8Cont c2 && utf8Valid rest2
      | _ => false
    else if 225 ≤ c && c ≤ 236 then
      match rest with
      | c1 :: c2 :: rest2 => utf8Cont c1 && utf8Cont c2 && utf8Valid rest2
      | _ => false
    else if c = 237 then
      match rest with
      | c1 :: c2 :: rest2 =>
        decide (128 ≤ c1 ∧ c1 ≤ 159) && utf8Cont c2 && utf8Valid rest2
      | _ => false
    else if 238 ≤ c && c ≤ 239 then
      match rest with
      | c1 :: c2 :: rest2 => utf8Cont c1 && utf8Cont c2 && utf8Valid rest2
      | _ => false
    else if c = 240 then
      match rest with
      | c1 :: c2 :: c3 :: rest2 =>
        decide (144 ≤ c1 ∧ c1 ≤ 191) && utf8Cont c2 && utf8Cont c3 &&
          utf8Valid rest2
      | _ => false
    else if 241 ≤ c && c ≤ 243 then
      match rest with
      | c1 :: c2 :: c3 :: rest2 =>
        utf8Cont c1 && utf8Cont c2 && utf8Cont c3 && utf8Valid rest2
      | _ => false
    else if c = 244 then
      match rest with
      | c1 :: c2 :: c3 :: rest2 =>
        decide (128 ≤ c1 ∧ c1 ≤ 143) && utf8Cont c2 && utf8Cont c3 &&
          utf8Valid rest2
      | _ => false
    else false

/-- Model of `String::from_utf8`: the same bytes on success. -/
def stringFromUtf8 (bytes : List Nat) : Option (List Nat) :=
  if utf8Valid bytes then some bytes else none

/-- The per-header closure inside `password_from_headers`
(src/server.rs:165-172): split the value on single spaces; if the first
piece is exactly Basic, yield the following piece. -/
def basicToken (h : Header) : Option (List Nat) :=
  match splitByte 32 h.value with
  | first :: rest => if first = ascii "Basic" then rest.head? else none
  | [] => none

/-- The first stages of `password_from_headers` (src/server.rs:162-175):
the first Authorization header carrying a Basic token, base64-decoded and
checked as UTF-8. -/
def decodedCredentials (headers : List Header) : Option (List Nat) :=
  ((headers.filter
      (fun h => headerFieldEquiv h.field (ascii "Authorization"))).filterMap
    basicToken).head? >>=
  (fun basic => base64Decode basic) >>=
  (fun bytes => stringFromUtf8 bytes)

/-- Model of `password_from_headers` (src/server.rs:162-177): the decoded
credentials, then `creds.split(":").nth(1)`. -/
def password_from_headers (headers : List Header) : Option (List Nat) :=
  decodedCredentials headers >>= (fun creds => (splitByte 58 creds)[1]?)

/-! ## Specification-side definitions

Used to state refinement properties; written from the specification's
wording, to be compared with the definitions above. -/

/-- Everything after the first colon of a byte string, `none` when it has no
colon. -/
def afterFirstColon : List Nat → Option (List Nat)
  | [] => none
  | c :: rest => if c = 58 then some rest else afterFirstColon rest

/-- The credentials field between the first colon and the following colon
(to the end of the string when no further colon exists); `none` when the
string has no colon at all. -/
def secondColonField (creds : List Nat) : Option (List Nat) :=
  (afterFirstColon creds).map (fun r => r.takeWhile (fun c => c != 58))

/-- The value of the last comment entry carrying the given name (exact,
case-sensitive match); `none` when no entry carries it.  A later occurrence
shadows every earlier one. -/
def lastCommentValue (name : List Nat) : List (List Nat × List Nat) →
    Option (List Nat)
  | [] => none
  | (n, v) :: rest =>
    match lastCommentValue name rest with
    | some w => some w
    | none => if n = name then some v else none

/-! ## Theorems -/

/-- C1: Against the claim that every subscriber whose bounded queue is full
at a publish is removed and that publish returns after servicing every
subscriber: with two subscribers whose queues are both full, the write-lock
loop of `Channel::publish` first `swap_remove`s index 0 (shrinking the
vector to length 1) and then calls `swap_remove(1)` on the length-1 vector,
which panics with an out-of-bounds index, so publish neither removes the
second dead subscriber nor returns. -/
theorem publish_panics_with_two_full_queues :
    channelPublish [⟨0, true⟩, ⟨1, true⟩] = none := by decide

/-- C2: Against the claim that once the pipeline exits and the claim guard
is dropped a subscriber's `recv()` returns absent: dropping the
`StreamSource` only removes the registry entry (releasing the registry's
and the source's `Arc<Stream>`); a connected subscriber still holds its own
`Arc<Stream>`, so the `Stream`, its `Channel`, and the subscriber's
`SyncSender` stay alive, and `recv()` on an empty queue blocks instead of
returning absent. -/
theorem recv_blocks_after_source_exit :
    recvModel true (senderGoneAfter (dropStreamSource ⟨true, true, 1⟩) false) =
      .blocks ∧
    RecvOutcome.blocks ≠ RecvOutcome.absent := by
  exact ⟨rfl, by decide⟩

/-- C6: Against the claim that a request whose method is neither SOURCE nor
GET gets status 405: the dispatcher of src/server.rs:361-370 responds with
status 404 (even though its body reads Method not allowed, and the parallel
dispatcher of src/main.rs:187-196 responds 405 with the same body). -/
theorem other_method_response_status :
    handle_request_server (.Other (ascii "POST")) =
      .respond 404 (ascii "<h1>Method not allowed</h1>\n") ∧
    handle_request_main (.Other (ascii "POST")) =
      .respond 405 (ascii "<h1>Method not allowed</h1>\n") ∧
    (404 : Nat) ≠ 405 := by
  exact ⟨rfl, rfl, by decide⟩

/-- Inserting one `BadPacket` read anywhere in the sequence of read results
leaves the final pipeline state exactly unchanged. -/
theorem runPipeline_badPacket_absorbed (encode : PcmData → List Nat)
    (l1 l2 : List (Except StreamError StreamRead)) (s : PipeState) :
    runPipeline encode (l1 ++ .error .BadPacket :: l2) s =
      runPipeline encode (l1 ++ l2) s := by
  induction l1 generalizing s with
  | nil => rfl
  | cons r rest ih =>
    cases r with
    | error err =>
      cases err with
      | IoError e => rfl
      | BadPacket => simpa [runPipeline] using ih s
    | ok rr =>
      cases rr with
      | Eof => rfl
      | Audio pcm => simpa [runPipeline] using ih _
      | Metadata m => simpa [runPipeline] using ih _

/-- C7: In the pipeline driver loop, a `BadPacket` read is absorbed (the
final state, metadata, dump, and published output are exactly as if that
read had not happened), a `Metadata` read overwrites the stream's metadata
and the loop continues, and an `IoError` or a clean `Eof` terminates the
loop immediately; hence a single bad packet never terminates the
broadcast. -/
theorem pipeline_loop_error_handling :
    ∀ encode : PcmData → List Nat,
      (∀ l1 l2 s, runPipeline encode (l1 ++ .error .BadPacket :: l2) s =
        runPipeline encode (l1 ++ l2) s) ∧
      (∀ m rest s, runPipeline encode (.ok (.Metadata m) :: rest) s =
        runPipeline encode rest { s with metadata := m }) ∧
      (∀ e rest s, runPipeline encode (.error (.IoError e) :: rest) s = s) ∧
      (∀ rest s, runPipeline encode (.ok .Eof :: rest) s = s) := by
  intro encode
  exact ⟨fun l1 l2 s => runPipeline_badPacket_absorbed encode l1 l2 s,
    fun _ _ _ => rfl, fun _ _ _ => rfl, fun _ _ => rfl⟩

/-- C8: `OggStream::read` maps each Ogg framing error (missing capture
pattern, invalid stream structure version, page hash mismatch, invalid
data) to `BadPacket`, maps an underlying transport `ReadError` to
`IoError`, and maps the end of the packet stream to `Eof`, whatever the
audio decoder and comment parser do. -/
theorem ogg_read_error_mapping :
    ∀ (dec : List Nat → Except AudioReadError PcmData)
      (rc : List Nat → Except Unit CommentHeader),
      (∀ e, oggStreamRead (.error (.ReadError e)) dec rc =
        .error (.IoError e)) ∧
      oggStreamRead (.error .NoCapturePatternFound) dec rc =
        .error .BadPacket ∧
      (∀ v, oggStreamRead (.error (.InvalidStreamStructVer v)) dec rc =
        .error .BadPacket) ∧
      (∀ a b, oggStreamRead (.error (.HashMismatch a b)) dec rc =
        .error .BadPacket) ∧
      oggStreamRead (.error .InvalidData) dec rc = .error .BadPacket ∧
      oggStreamRead (.ok none) dec rc = .ok .Eof := by
  intro dec rc
  exact ⟨fun _ => rfl, rfl, fun _ => rfl, fun _ _ => rfl, rfl, rfl⟩

/-- C5: While any registry entry (Starting or Live) exists under a
mountpoint, `start_stream` on that mountpoint refuses with `AlreadyLive`
and leaves the registry exactly unchanged (whatever the hook would say),
and `handle_source` answers an `AlreadyLive` refusal with status 409. -/
theorem start_stream_refuses_existing_mountpoint
    (reg : Registry) (mount : List Nat) (newStreamId : Nat)
    (hook : Except Nat StreamStart) (e : StreamEntry)
    (h : regGet reg mount = some e) :
    start_stream reg mount newStreamId hook = (reg, .error .AlreadyLive) ∧
    sourceErrorStatus .AlreadyLive = 409 := by
  have h1 : start_stream reg mount newStreamId hook =
      (reg, .error .AlreadyLive) := by
    unfold start_stream
    rw [h]
  exact ⟨h1, rfl⟩

/-- Witness for C5: a mountpoint already live with another stream. -/
theorem start_stream_refuses_existing_mountpoint_witness :
    start_stream [(ascii "/live", StreamEntry.Live 7)] (ascii "/live") 9
        (.ok .Ok) =
      ([(ascii "/live", StreamEntry.Live 7)], .error .AlreadyLive) ∧
    sourceErrorStatus .AlreadyLive = 409 :=
  start_stream_refuses_existing_mountpoint _ _ _ _ (StreamEntry.Live 7)
    (by decide)

/-- The enumerate loop collects no index when no subscriber is full. -/
theorem deadIndicesFrom_nil_of_not_full (txs : List Subscriber)
    (h : ∀ t ∈ txs, t.full = false) : ∀ i, deadIndicesFrom i txs = [] := by
  induction txs with
  | nil => intro i; rfl
  | cons t rest ih =>
    intro i
    have ht : t.full = false := h t (by simp)
    have hrest : ∀ x ∈ rest, x.full = false := fun x hx => h x (by simp [hx])
    simp [deadIndicesFrom, ht, ih hrest (i + 1)]

/-- If the enumerate loop collects some index, some subscriber is full. -/
theorem exists_full_of_deadIndicesFrom_ne_nil (txs : List Subscriber) :
    ∀ i, deadIndicesFrom i txs ≠ [] → ∃ t ∈ txs, t.full = true := by
  induction txs with
  | nil => intro i h; exact absurd rfl h
  | cons t rest ih =>
    intro i h
    by_cases ht : t.full
    · exact ⟨t, by simp, ht⟩
    · have h2 : deadIndicesFrom (i + 1) rest ≠ [] := by
        simpa [deadIndicesFrom, ht] using h
      obtain ⟨x, hx, hfx⟩ := ih (i + 1) h2
      exact ⟨x, by simp [hx], hfx⟩

/-- C10: When every subscriber's non-blocking enqueue succeeds, `publish`
leaves the subscriber vector exactly unchanged (nothing removed, nothing
added, order preserved) and does not take the write lock; and whenever the
write lock is taken, at least one subscriber's enqueue failed. -/
theorem publish_frame_when_no_queue_full :
    ∀ txs : List Subscriber,
      ((∀ t ∈ txs, t.full = false) →
        channelPublish txs = some txs ∧ writeLockTaken txs = false) ∧
      (writeLockTaken txs = true → ∃ t ∈ txs, t.full = true) := by
  intro txs
  constructor
  · intro h
    have hd : deadIndices txs = [] :=
      deadIndicesFrom_nil_of_not_full txs h 0
    constructor
    · simp [channelPublish, hd]
    · simp [writeLockTaken, hd]
  · intro h
    apply exists_full_of_deadIndicesFrom_ne_nil txs 0
    intro hnil
    simp [writeLockTaken, deadIndices, hnil] at h

/-- Witness for C10: two subscribers, neither queue full. -/
theorem publish_frame_when_no_queue_full_witness :
    channelPublish [⟨0, false⟩, ⟨1, false⟩] =
      some [⟨0, false⟩, ⟨1, false⟩] ∧
    writeLockTaken [⟨0, false⟩, ⟨1, false⟩] = false :=
  (publish_frame_when_no_queue_full [⟨0, false⟩, ⟨1, false⟩]).1 (by decide)

/-- C4 counterexample: with two ARTIST entries, the conversion yields the
second (last) value, not the first, so the first occurrence does not win. -/
theorem metadata_comment_first_occurrence_loses :
    metadataFromComments
        ⟨[(ascii "ARTIST", ascii "a1"), (ascii "ARTIST", ascii "a2")]⟩ =
      { artist := some (ascii "a2"), title := none } ∧
    (some (ascii "a2") : Option (List Nat)) ≠ some (ascii "a1") := by
  exact ⟨by decide, by decide⟩

/-- The comment fold with arbitrary accumulators: each field ends up as the
last matching occurrence when one exists, and as the accumulator
otherwise. -/
theorem metadataFromComments_go_spec (l : List (List Nat × List Nat)) :
    ∀ a t, metadataFromComments.go l a t =
      { artist :=
          match lastCommentValue (ascii "ARTIST") l with
          | some w => some w
          | none => a,
        title :=
          match lastCommentValue (ascii "TITLE") l with
          | some w => some w
          | none => t } := by
  induction l with
  | nil => intro a t; rfl
  | cons p rest ih =>
    obtain ⟨n, v⟩ := p
    intro a t
    have hne : ¬ (ascii "ARTIST" = ascii "TITLE") := by decide
    have hne2 : ¬ (ascii "TITLE" = ascii "ARTIST") := by decide
    by_cases hA : n = ascii "ARTIST"
    · have hnT : ¬ (n = ascii "TITLE") := by
        rw [hA]; exact hne
      rw [show metadataFromComments.go ((n, v) :: rest) a t =
          metadataFromComments.go rest (some v) t by
        simp [metadataFromComments.go, hA]]
      rw [ih]
      cases h1 : lastCommentValue (ascii "ARTIST") rest <;>
        cases h2 : lastCommentValue (ascii "TITLE") rest <;>
          simp [lastCommentValue, h1, h2, hA, hnT, hne, hne2]
    · by_cases hT : n = ascii "TITLE"
      · rw [show metadataFromComments.go ((n, v) :: rest) a t =
            metadataFromComments.go rest a (some v) by
          simp [metadataFromComments.go, hA, hT, hne2]]
        rw [ih]
        cases h1 : lastCommentValue (ascii "ARTIST") rest <;>
          cases h2 : lastCommentValue (ascii "TITLE") rest <;>
            simp [lastCommentValue, h1, h2, hA, hT, hne, hne2]
      · rw [show metadataFromComments.go ((n, v) :: rest) a t =
            metadataFromComments.go rest a t by
          simp [metadataFromComments.go, hA, hT]]
        rw [ih]
        cases h1 : lastCommentValue (ascii "ARTIST") rest <;>
          cases h2 : lastCommentValue (ascii "TITLE") rest <;>
            simp [lastCommentValue, h1, h2, hA, hT, hne, hne2]

/-- C4 as amended: the artist and title are taken from the ARTIST and TITLE
entries by case-sensitive name match, the last occurrence of each name wins
when a name appears more than once, entries with any other name leave the
result unchanged, and a comment list containing neither name yields both
fields absent. -/
theorem metadata_from_comments_last_wins :
    ∀ h : CommentHeader,
      metadataFromComments h =
        { artist := lastCommentValue (ascii "ARTIST") h.comment_list,
          title := lastCommentValue (ascii "TITLE") h.comment_list } := by
  intro h
  rw [show metadataFromComments h =
      metadataFromComments.go h.comment_list none none from rfl]
  rw [metadataFromComments_go_spec]
  cases h1 : lastCommentValue (ascii "ARTIST") h.comment_list <;>
    cases h2 : lastCommentValue (ascii "TITLE") h.comment_list <;> simp

/-- Splitting never yields an empty list of pieces. -/
theorem splitByte_ne_nil (sep : Nat) (l : List Nat) : splitByte sep l ≠ [] := by
  cases l with
  | nil => simp [splitByte]
  | cons b rest =>
    simp only [splitByte]
    by_cases h : b = sep
    · simp [h]
    · simp only [h, if_false]
      cases splitByte sep rest <;> simp

/-- The first piece of a split is the run before the first separator. -/
theorem splitByte_head (sep : Nat) (l : List Nat) :
    (splitByte sep l).head? = some (l.takeWhile (fun c => c != sep)) := by
  induction l with
  | nil => rfl
  | cons b rest ih =>
    simp only [splitByte]
    by_cases h : b = sep
    · simp [h]
    · cases hr : splitByte sep rest with
      | nil => exact absurd hr (splitByte_ne_nil sep rest)
      | cons hd tl =>
        rw [hr] at ih
        simp only [List.head?, Option.some.injEq] at ih
        simp [h, hr, List.takeWhile_cons, ih]

/-- The second piece of a colon split is the field between the first colon
and the following colon. -/
theorem splitByte_second (l : List Nat) :
    (splitByte 58 l)[1]? = secondColonField l := by
  induction l with
  | nil => rfl
  | cons b rest ih =>
    simp only [splitByte, secondColonField, afterFirstColon]
    by_cases h : b = 58
    · have hh := splitByte_head 58 rest
      simp [h, List.getElem?_cons_succ, ← List.head?_eq_getElem?, hh,
        secondColonField]
    · cases hr : splitByte 58 rest with
      | nil => exact absurd hr (splitByte_ne_nil 58 rest)
      | cons hd tl =>
        rw [hr] at ih
        simp only [secondColonField] at ih
        simp [h, hr, List.getElem?_cons_succ] at ih ⊢
        exact ih

/-- C3 counterexample: for credentials with two colons the code yields the
field between the colons, not the whole substring after the first colon:
the token dXNlcjpwYTpzcw== decodes to user:pa:ss, whose substring after the
first colon is pa:ss, yet the extracted password is pa. -/
theorem password_truncated_at_second_colon :
    password_from_headers
        [⟨ascii "Authorization", ascii "Basic dXNlcjpwYTpzcw=="⟩] =
      some (ascii "pa") ∧
    ascii "pa" ≠ ascii "pa:ss" := by
  exact ⟨by decide, by decide⟩

/-- C3 as amended: the extracted source password is obtained by
base64-decoding the token after Basic in the Authorization header and
taking the field of the decoded credentials between the first colon and the
next colon (to the end when no second colon exists); any parse failure
(missing header, non-Basic scheme, bad base64, non-UTF-8, no colon) yields
no password.  In particular Basic dXNlcjpwYXNz yields password pass. -/
theorem password_is_second_colon_field :
    (∀ headers, password_from_headers headers =
      decodedCredentials headers >>= secondColonField) ∧
    password_from_headers
        [⟨ascii "Authorization", ascii "Basic dXNlcjpwYXNz"⟩] =
      some (ascii "pass") ∧
    password_from_headers [] = none ∧
    password_from_headers [⟨ascii "Authorization", ascii "Basic !!!"⟩] =
      none ∧
    password_from_headers
        [⟨ascii "Authorization", ascii "Bearer dXNlcjpwYXNz"⟩] = none := by
  refine ⟨fun headers => ?_, by decide, by decide, by decide, by decide⟩
  unfold password_from_headers
  cases decodedCredentials headers with
  | none => rfl
  | some creds => exact splitByte_second creds

/-- A path cannot end in both .json and .mp3: their last bytes differ. -/
theorem not_mp3_of_json_suffix (path : List Nat)
    (hj : (ascii ".json").isSuffixOf path = true) :
    (ascii ".mp3").isSuffixOf path = false := by
  by_contra hm
  rw [Bool.not_eq_false] at hm
  have hj2 : ascii ".json" <:+ path := by
    simpa using hj
  have hm2 : ascii ".mp3" <:+ path := by
    simpa using hm
  rcases List.suffix_or_suffix_of_suffix hm2 hj2 with h | h
  · exact absurd h (by decide)
  · exact absurd h (by decide)

/-- C9: `extract_request_format` strips a trailing .mp3 yielding the Mp3
format, strips a trailing .json yielding the Json format, and otherwise
returns the path unchanged with the Mp3 format; in particular on /foo.mp3,
/foo.json and /foo it returns (Mp3, /foo), (Json, /foo) and (Mp3, /foo). -/
theorem extract_request_format_spec :
    (∀ path : List Nat,
      ((ascii ".mp3").isSuffixOf path = true →
        extract_request_format path = (.Mp3, path.take (path.length - 4))) ∧
      ((ascii ".json").isSuffixOf path = true →
        extract_request_format path = (.Json, path.take (path.length - 5))) ∧
      ((ascii ".mp3").isSuffixOf path = false →
        (ascii ".json").isSuffixOf path = false →
        extract_request_format path = (.Mp3, path))) ∧
    extract_request_format (ascii "/foo.mp3") = (.Mp3, ascii "/foo") ∧
    extract_request_format (ascii "/foo.json") = (.Json, ascii "/foo") ∧
    extract_request_format (ascii "/foo") = (.Mp3, ascii "/foo") := by
  have h4 : (ascii ".mp3").length = 4 := rfl
  have h5 : (ascii ".json").length = 5 := rfl
  refine ⟨fun path => ⟨?_, ?_, ?_⟩, by decide, by decide, by decide⟩
  · intro h
    unfold extract_request_format chomp
    simp [h, h4]
  · intro h
    have hm : (ascii ".mp3").isSuffixOf path = false :=
      not_mp3_of_json_suffix path h
    unfold extract_request_format chomp
    simp [h, hm, h5]
  · intro hm hj
    unfold extract_request_format chomp
    simp [hm, hj]

/-- Witness for C9: a path with a .json suffix. -/
theorem extract_request_format_spec_witness :
    extract_request_format (ascii "/x.json") =
      (.Json, (ascii "/x.json").take ((ascii "/x.json").length - 5)) :=
  (extract_request_format_spec.1 (ascii "/x.json")).2.1 (by decide)

end Rustcast
